import Mathlib

set_option maxRecDepth 4000

/-!
Shallow embedding of the `vhdx` crate (a read-only VHDX virtual-disk
container reader) and proofs about its specification claims.

The underlying file is modelled as `MFile`: a length together with a byte
function, so that reads are pure lookups.  Machine integers (`u8`, `u32`,
`u64`) are modelled as `Nat`; every place where the Rust code can overflow,
underflow, divide by zero, panic on an assertion, or `unwrap` a `None` is
modelled explicitly with the `Outcome` type below.  Rust loops are modelled
with explicit fuel; running out of fuel yields `Outcome.diverge`, so an
`Outcome.ok` result always corresponds to a real terminating run.
-/

namespace Vhdx

/-- Bytes per kibibyte (`const KB: usize = 1024` in `lib.rs`). -/
def KB : Nat := 1024

/-- Bytes per mebibyte (`const MB: usize = KB * KB` in `lib.rs`). -/
def MB : Nat := KB * KB

/-- The `Error` enum of `lib.rs`.  `ioErr` stands for `Error::Io(..)` (the
wrapped `std::io::Error` payload is irrelevant to the claims), and
`invalidSignature` stands for `Error::InvalidSignature`.  The source has no
further variants. -/
inductive Error where
  | ioErr : Error
  | invalidSignature : Error
  deriving DecidableEq

/-- The distinct panic sites of the source that the claims can reach.  Each
constructor corresponds to one kind of Rust panic; the doc string of the
constructor gives the Rust message. -/
inductive PanicMsg where
  /-- An `assert!`/`assert_eq!` failure. -/
  | assertionFailed
  /-- `called Option::unwrap() on a None value`. -/
  | unwrapNone
  /-- `String::from_utf8(..).unwrap()` / `std::str::from_utf8(..).unwrap()`
  on bytes that are not valid UTF-8. -/
  | invalidUtf8
  /-- `bat.rs`: `panic!("unknown state: ..")` in `from_bits`. -/
  | unknownBatState
  /-- `bat.rs`: `unimplemented!("sector bitmap blocks")`. -/
  | sectorBitmapBlocks
  /-- `lib.rs`: `unimplemented!("differential disks")`. -/
  | differentialDisks
  /-- `attempt to divide by zero`. -/
  | divideByZero
  /-- `attempt to subtract with overflow` (u64 underflow, debug semantics;
  in release the wrapped value makes the subsequent
  `unimplemented!("sector bitmap blocks")` fire instead, so the
  computation aborts either way). -/
  | subtractOverflow
  /-- `lib.rs`: `panic!("no valid log sequences, file is corrupt")`. -/
  | noValidLogSequences
  /-- `lib.rs`: `panic!("file has been truncated, cannot open")`. -/
  | fileTruncated
  /-- `lib.rs`: `panic!("descriptor does not have the correct sequence number")`. -/
  | wrongDescriptorSequence
  /-- `lib.rs`: `panic!("zeros write start is greater than file length")`
  (used by the source for both the start-bound and the end-bound check of a
  Zero descriptor). -/
  | zerosWriteBounds
  deriving DecidableEq

/-- Result of running a fallible / possibly-panicking / possibly-looping
piece of the Rust code. -/
inductive Outcome (α : Type) where
  | ok : α → Outcome α
  | err : Error → Outcome α
  | panic : PanicMsg → Outcome α
  | diverge : Outcome α
  deriving DecidableEq

/-- The underlying disk file: a length and a byte function.  Positions at or
beyond `size` are unreadable (reads of them fail like `read_exact` hitting
end-of-file). -/
structure MFile where
  size : Nat
  byteAt : Nat → Nat

/-- `read_exact` into a buffer of `n` bytes at absolute position `pos`:
succeeds iff the whole range is inside the file.  The `% 256` keeps every
byte in `u8` range. -/
def MFile.readExact (f : MFile) (pos n : Nat) : Option (List Nat) :=
  if pos + n ≤ f.size then some ((List.range n).map fun i => f.byteAt (pos + i) % 256) else none

/-- Little-endian value of a byte list (`uN::from_le_bytes`). -/
def leNum : List Nat → Nat
  | [] => 0
  | b :: rest => b % 256 + 256 * leNum rest

/-- The sub-buffer `buf[start..start+len]`. -/
def sliceOf (buf : List Nat) (start len : Nat) : List Nat :=
  (buf.drop start).take len

/-- Little-endian integer read from `buf[start..start+len]`. -/
def leAt (buf : List Nat) (start len : Nat) : Nat :=
  leNum (sliceOf buf start len)

/-- A UTF-8 continuation byte (`0x80 ..= 0xBF`). -/
def contByte (b : Nat) : Bool := decide (0x80 ≤ b ∧ b ≤ 0xBF)

/-- UTF-8 validity of a byte list, as checked by `String::from_utf8` /
`std::str::from_utf8` in the source before a signature comparison (the
source `unwrap`s the result, so invalid UTF-8 is a panic, not a signature
mismatch). -/
def validUtf8 : List Nat → Bool
  | [] => true
  | b :: rest =>
    if b ≤ 0x7F then validUtf8 rest
    else if 0xC2 ≤ b ∧ b ≤ 0xDF then
      match rest with
      | b1 :: r => contByte b1 && validUtf8 r
      | [] => false
    else if b = 0xE0 then
      match rest with
      | b1 :: b2 :: r => decide (0xA0 ≤ b1 ∧ b1 ≤ 0xBF) && contByte b2 && validUtf8 r
      | _ => false
    else if 0xE1 ≤ b ∧ b ≤ 0xEC then
      match rest with
      | b1 :: b2 :: r => contByte b1 && contByte b2 && validUtf8 r
      | _ => false
    else if b = 0xED then
      match rest with
      | b1 :: b2 :: r => decide (0x80 ≤ b1 ∧ b1 ≤ 0x9F) && contByte b2 && validUtf8 r
      | _ => false
    else if 0xEE ≤ b ∧ b ≤ 0xEF then
      match rest with
      | b1 :: b2 :: r => contByte b1 && contByte b2 && validUtf8 r
      | _ => false
    else if b = 0xF0 then
      match rest with
      | b1 :: b2 :: b3 :: r => decide (0x90 ≤ b1 ∧ b1 ≤ 0xBF) && contByte b2 && contByte b3 && validUtf8 r
      | _ => false
    else if 0xF1 ≤ b ∧ b ≤ 0xF3 then
      match rest with
      | b1 :: b2 :: b3 :: r => contByte b1 && contByte b2 && contByte b3 && validUtf8 r
      | _ => false
    else if b = 0xF4 then
      match rest with
      | b1 :: b2 :: b3 :: r => decide (0x80 ≤ b1 ∧ b1 ≤ 0x8F) && contByte b2 && contByte b3 && validUtf8 r
      | _ => false
    else false

/-- `guid.rs`: a GUID with its four fields.  `data_4` is the raw 8-byte
tail. -/
structure Guid where
  data_1 : Nat
  data_2 : Nat
  data_3 : Nat
  data_4 : List Nat
  deriving DecidableEq

/-- `Guid::from_bytes`: wire form, first three fields little-endian, tail
raw. -/
def Guid.from_bytes (b : List Nat) : Guid :=
  { data_1 := leAt b 0 4, data_2 := leAt b 4 2, data_3 := leAt b 6 2, data_4 := sliceOf b 8 8 }

/-- `Guid::ZERO`. -/
def Guid.ZERO : Guid := Guid.from_bytes (List.replicate 16 0)

/-- `metadata.rs` `FileParameters` payload. -/
structure FileParameters where
  block_size : Nat
  leave_block_allocated : Bool
  has_parent : Bool
  deriving DecidableEq

/-- `metadata.rs` `VirtualDiskSize` payload. -/
structure VirtualDiskSize where
  virtual_disk_size : Nat
  deriving DecidableEq

/-- `metadata.rs` `VirtualDiskId` payload. -/
structure VirtualDiskId where
  virtual_disk_id : Guid
  deriving DecidableEq

/-- `metadata.rs` `LogicalSectorSize` payload. -/
structure LogicalSectorSize where
  logical_sector_size : Nat
  deriving DecidableEq

/-- `metadata.rs` `PhysicalSectorSize` payload. -/
structure PhysicalSectorSize where
  physical_sector_size : Nat
  deriving DecidableEq

/-- `metadata.rs` `ParentLocator` payload (key/value data is not read by the
source). -/
structure ParentLocator where
  locator_type : Guid
  key_value_count : Nat
  deriving DecidableEq

/-- The aggregated `Metadata` struct of `lib.rs`. -/
structure Metadata where
  file_parameters : FileParameters
  virtual_disk_size : VirtualDiskSize
  virtual_disk_id : VirtualDiskId
  logical_sector_size : LogicalSectorSize
  physical_sector_size : PhysicalSectorSize
  parent_locator : Option ParentLocator
  deriving DecidableEq

/-- `lib.rs` `MetadataTableEntry`. -/
structure MetadataTableEntry where
  item_id : Guid
  offset : Nat
  length : Nat
  is_user : Bool
  is_virtual_disk : Bool
  is_required : Bool
  is_empty : Bool
  deriving DecidableEq

/-- `MetadataTableEntry::read`: 32 bytes, field decode, then the source's
assertions in source order: `assert!(offset >= 64 * KB)`,
`assert!(length <= MB)`, and — only reachable when the first assertion
passed — `if length == 0 { assert_eq!(offset, 0) }`. -/
def MetadataTableEntry.read (f : MFile) (pos : Nat) : Outcome (MetadataTableEntry × Nat) :=
  match f.readExact pos 32 with
  | none => .err .ioErr
  | some buffer =>
    let item_id := Guid.from_bytes (sliceOf buffer 0 16)
    let offset := leAt buffer 16 4
    let length := leAt buffer 20 4
    let b24 := buffer.getD 24 0
    let is_user := decide (b24 % 2 = 1)
    let is_virtual_disk := decide (b24 / 2 % 2 = 1)
    let is_required := decide (b24 / 4 % 2 = 1)
    if ¬ (offset ≥ 64 * KB) then .panic .assertionFailed
    else if ¬ (length ≤ MB) then .panic .assertionFailed
    else if length = 0 ∧ ¬ (offset = 0) then .panic .assertionFailed
    else
      .ok ({ item_id := item_id, offset := offset, length := length,
             is_user := is_user, is_virtual_disk := is_virtual_disk,
             is_required := is_required, is_empty := decide (length = 0) }, pos + 32)

/-- `bat.rs` `PayloadBatEntryState`. -/
inductive PayloadBatEntryState where
  | notPresent
  | undefined
  | zero
  | unmapped
  | fullyPresent
  | partiallyPresent
  deriving DecidableEq

/-- `PayloadBatEntryState::from_bits`: the three low bits; values 4 and 5
panic with `unknown state`. -/
def PayloadBatEntryState.from_bits (value : Nat) : Outcome PayloadBatEntryState :=
  if value = 0 then .ok .notPresent
  else if value = 1 then .ok .undefined
  else if value = 2 then .ok .zero
  else if value = 3 then .ok .unmapped
  else if value = 6 then .ok .fullyPresent
  else if value = 7 then .ok .partiallyPresent
  else .panic .unknownBatState

/-- `bat.rs` `BatEntry`. -/
structure BatEntry where
  state : PayloadBatEntryState
  file_offset : Nat
  deriving DecidableEq

/-- `BatEntry::read`: 8 little-endian bytes; state from the low three bits
(`value as u8 & 0b111`, i.e. `value % 8`), file offset from
`value & 0xFFFFFFFFFFF00000`. -/
def BatEntry.read (f : MFile) (pos : Nat) : Outcome (BatEntry × Nat) :=
  match f.readExact pos 8 with
  | none => .err .ioErr
  | some buffer =>
    let value := leNum buffer
    match PayloadBatEntryState.from_bits (value % 8) with
    | .ok state => .ok ({ state := state, file_offset := Nat.land value 0xFFFFFFFFFFF00000 }, pos + 8)
    | .err e => .err e
    | .panic m => .panic m
    | .diverge => .diverge

/-- The sequential `(0..total_bat_entries).map(|_| BatEntry::read(file))`
loop of `Bat::read`. -/
def readBatEntries (f : MFile) : Nat → Nat → Outcome (List BatEntry × Nat)
  | 0, pos => .ok ([], pos)
  | n + 1, pos =>
    match BatEntry.read f pos with
    | .ok (e, pos') =>
      match readBatEntries f n pos' with
      | .ok (l, p) => .ok (e :: l, p)
      | .err er => .err er
      | .panic m => .panic m
      | .diverge => .diverge
    | .err er => .err er
    | .panic m => .panic m
    | .diverge => .diverge

/-- `bat.rs` free function `div_ceil`. -/
def div_ceil (dividend divisor : Nat) : Nat :=
  let d := dividend / divisor
  let r := dividend % divisor
  if r > 0 ∧ divisor > 0 then d + 1 else d

/-- `bat.rs` `Bat`. -/
structure Bat where
  block_size : Nat
  chunk_ratio : Nat
  entries : List BatEntry
  deriving DecidableEq

/-- `Bat::read`, translated from `bat.rs`.  Note the source computes the
chunk ratio as `(2 << 23) * logical_sector_size as u64 / block_size`, and
`2 << 23 = 2^24`.  The explicit guards model the Rust panics that the `Nat`
operations would otherwise silently absorb: division by a zero
`block_size` or a zero `chunk_ratio`, and the u64 underflow of
`payload_blocks_count - 1` when the virtual disk size is zero. -/
def Bat.read (f : MFile) (pos : Nat) (metadata : Metadata) : Outcome (Bat × Nat) :=
  let virt_disk_size := metadata.virtual_disk_size.virtual_disk_size
  let logical_sector_size := metadata.logical_sector_size.logical_sector_size
  let block_size := metadata.file_parameters.block_size
  if block_size = 0 then .panic .divideByZero
  else
    let chunk_ratio := (2 <<< 23) * logical_sector_size / block_size
    let payload_blocks_count := div_ceil virt_disk_size block_size
    if payload_blocks_count = 0 then .panic .subtractOverflow
    else if chunk_ratio = 0 then .panic .divideByZero
    else
      let total_bat_entries := payload_blocks_count + (payload_blocks_count - 1) / chunk_ratio
      if ¬ (total_bat_entries - payload_blocks_count = 0) then .panic .sectorBitmapBlocks
      else
        match readBatEntries f total_bat_entries pos with
        | .ok (entries, pos') =>
          .ok ({ block_size := block_size, chunk_ratio := chunk_ratio, entries := entries }, pos')
        | .err er => .err er
        | .panic m => .panic m
        | .diverge => .diverge

/-- `Bat::offset_to_entry`: translate a virtual disk offset to the BAT entry
containing it plus the residual offset inside that entry.  The source
`unwrap`s the `entries.get(bat_index)` lookup, which panics when the index
is out of bounds. -/
def Bat.offset_to_entry (b : Bat) (offset : Nat) : Outcome (BatEntry × Nat) :=
  let payload_block_index := offset / b.block_size
  let sector_bitmap_blocks := payload_block_index / b.chunk_ratio
  let bat_index := payload_block_index + sector_bitmap_blocks
  match b.entries.get? bat_index with
  | none => .panic .unwrapNone
  | some entry =>
    let base_address := payload_block_index * b.block_size
    .ok (entry, offset - base_address)

/-- The 4 bytes of the ASCII signature `loge`. -/
def logEntrySig : List Nat := [108, 111, 103, 101]

/-- The 4 bytes of the ASCII signature `zero`. -/
def zeroDescriptorSig : List Nat := [122, 101, 114, 111]

/-- The 4 bytes of the ASCII signature `desc`. -/
def dataDescriptorSig : List Nat := [100, 101, 115, 99]

/-- The 4 bytes of the ASCII signature `data`. -/
def dataSectorSig : List Nat := [100, 97, 116, 97]

/-- `log.rs` `LogEntryHeader`.  The signature is kept as its raw bytes (the
source keeps the decoded `String`; on valid UTF-8 the two notions of
equality agree, and invalid UTF-8 panics before the struct is built). -/
structure LogEntryHeader where
  signature : List Nat
  checksum : List Nat
  entry_length : Nat
  tail : Nat
  sequence_number : Nat
  descriptor_count : Nat
  log_guid : Guid
  flushed_file_offset : Nat
  last_file_offset : Nat
  deriving DecidableEq

/-- `LogEntryHeader::read`: 64 bytes; `String::from_utf8(..).unwrap()` on
the first four (panic on invalid UTF-8); `Err(InvalidSignature)` when they
are not `loge`; then the source's alignment / positivity assertions. -/
def LogEntryHeader.read (f : MFile) (pos : Nat) : Outcome (LogEntryHeader × Nat) :=
  match f.readExact pos 64 with
  | none => .err .ioErr
  | some buffer =>
    let signature := sliceOf buffer 0 4
    if ¬ validUtf8 signature then .panic .invalidUtf8
    else
      let checksum := sliceOf buffer 4 4
      let entry_length := leAt buffer 8 4
      let tail := leAt buffer 12 4
      let sequence_number := leAt buffer 16 8
      let descriptor_count := leAt buffer 24 4
      let log_guid := Guid.from_bytes (sliceOf buffer 32 16)
      let flushed_file_offset := leAt buffer 48 8
      let last_file_offset := leAt buffer 56 8
      if ¬ (signature = logEntrySig) then .err .invalidSignature
      else if ¬ (entry_length % (4 * KB) = 0) then .panic .assertionFailed
      else if ¬ (tail % (4 * KB) = 0) then .panic .assertionFailed
      else if ¬ (sequence_number > 0) then .panic .assertionFailed
      else if ¬ (flushed_file_offset % MB = 0) then .panic .assertionFailed
      else if ¬ (last_file_offset % MB = 0) then .panic .assertionFailed
      else
        .ok ({ signature := signature, checksum := checksum, entry_length := entry_length,
               tail := tail, sequence_number := sequence_number,
               descriptor_count := descriptor_count, log_guid := log_guid,
               flushed_file_offset := flushed_file_offset,
               last_file_offset := last_file_offset }, pos + 64)

/-- `log.rs` `ZeroDescriptor`. -/
structure ZeroDescriptor where
  signature : List Nat
  zero_length : Nat
  file_offset : Nat
  sequence_number : Nat
  deriving DecidableEq

/-- `ZeroDescriptor::read`: 32 bytes; the signature is `assert_eq!`-ed (so a
mismatch is a panic here — `Entry::read` has already discriminated on the
peeked signature before calling this). -/
def ZeroDescriptor.read (f : MFile) (pos : Nat) : Outcome (ZeroDescriptor × Nat) :=
  match f.readExact pos 32 with
  | none => .err .ioErr
  | some buffer =>
    let signature := sliceOf buffer 0 4
    if ¬ validUtf8 signature then .panic .invalidUtf8
    else
      let zero_length := leAt buffer 8 8
      let file_offset := leAt buffer 16 8
      let sequence_number := leAt buffer 24 8
      if ¬ (signature = zeroDescriptorSig) then .panic .assertionFailed
      else if ¬ (zero_length % (4 * KB) = 0) then .panic .assertionFailed
      else if ¬ (file_offset % (4 * KB) = 0) then .panic .assertionFailed
      else
        .ok ({ signature := signature, zero_length := zero_length,
               file_offset := file_offset, sequence_number := sequence_number }, pos + 32)

/-- `log.rs` `DataDescriptor`. -/
structure DataDescriptor where
  signature : List Nat
  trailing_bytes : List Nat
  leading_bytes : List Nat
  file_offset : Nat
  sequence_number : Nat
  deriving DecidableEq

/-- `DataDescriptor::read`: 32 bytes. -/
def DataDescriptor.read (f : MFile) (pos : Nat) : Outcome (DataDescriptor × Nat) :=
  match f.readExact pos 32 with
  | none => .err .ioErr
  | some buffer =>
    let signature := sliceOf buffer 0 4
    if ¬ validUtf8 signature then .panic .invalidUtf8
    else
      let trailing_bytes := sliceOf buffer 4 4
      let leading_bytes := sliceOf buffer 8 8
      let file_offset := leAt buffer 16 8
      let sequence_number := leAt buffer 24 8
      if ¬ (signature = dataDescriptorSig) then .panic .assertionFailed
      else if ¬ (file_offset % (4 * KB) = 0) then .panic .assertionFailed
      else
        .ok ({ signature := signature, trailing_bytes := trailing_bytes,
               leading_bytes := leading_bytes, file_offset := file_offset,
               sequence_number := sequence_number }, pos + 32)

/-- `log.rs` `Descriptor`. -/
inductive Descriptor where
  | zero : ZeroDescriptor → Descriptor
  | data : DataDescriptor → Descriptor
  deriving DecidableEq

/-- Whether a descriptor is a Data descriptor
(`matches!(desc, Descriptor::Data(_))`). -/
def Descriptor.isData : Descriptor → Bool
  | .zero _ => false
  | .data _ => true

/-- `log.rs` `DataSector`: a 4 KiB sector holding 4084 payload bytes. -/
structure DataSector where
  signature : List Nat
  sequence_high : Nat
  data : List Nat
  sequence_low : Nat
  deriving DecidableEq

/-- `DataSector::read`: 4096 bytes. -/
def DataSector.read (f : MFile) (pos : Nat) : Outcome (DataSector × Nat) :=
  match f.readExact pos 4096 with
  | none => .err .ioErr
  | some buffer =>
    let signature := sliceOf buffer 0 4
    if ¬ validUtf8 signature then .panic .invalidUtf8
    else
      let sequence_high := leAt buffer 4 4
      let data := sliceOf buffer 8 4084
      let sequence_low := leAt buffer 4092 4
      if ¬ (signature = dataSectorSig) then .panic .assertionFailed
      else
        .ok ({ signature := signature, sequence_high := sequence_high,
               data := data, sequence_low := sequence_low }, pos + 4096)

/-- The descriptor-reading loop of `Entry::read`: peek 4 bytes
(`std::str::from_utf8(..).unwrap()`, panicking on invalid UTF-8), seek back,
and dispatch on the signature; an unrecognized signature is
`Err(InvalidSignature)`. -/
def readDescriptors (f : MFile) : Nat → Nat → Outcome (List Descriptor × Nat)
  | 0, pos => .ok ([], pos)
  | n + 1, pos =>
    match f.readExact pos 4 with
    | none => .err .ioErr
    | some buffer =>
      if ¬ validUtf8 buffer then .panic .invalidUtf8
      else if buffer = zeroDescriptorSig then
        match ZeroDescriptor.read f pos with
        | .ok (d, pos') =>
          match readDescriptors f n pos' with
          | .ok (l, p) => .ok (.zero d :: l, p)
          | .err er => .err er
          | .panic m => .panic m
          | .diverge => .diverge
        | .err er => .err er
        | .panic m => .panic m
        | .diverge => .diverge
      else if buffer = dataDescriptorSig then
        match DataDescriptor.read f pos with
        | .ok (d, pos') =>
          match readDescriptors f n pos' with
          | .ok (l, p) => .ok (.data d :: l, p)
          | .err er => .err er
          | .panic m => .panic m
          | .diverge => .diverge
        | .err er => .err er
        | .panic m => .panic m
        | .diverge => .diverge
      else .err .invalidSignature

/-- The data-sector reading loop of `Entry::read`. -/
def readDataSectors (f : MFile) : Nat → Nat → Outcome (List DataSector × Nat)
  | 0, pos => .ok ([], pos)
  | n + 1, pos =>
    match DataSector.read f pos with
    | .ok (s, pos') =>
      match readDataSectors f n pos' with
      | .ok (l, p) => .ok (s :: l, p)
      | .err er => .err er
      | .panic m => .panic m
      | .diverge => .diverge
    | .err er => .err er
    | .panic m => .panic m
    | .diverge => .diverge

/-- `log.rs` free function `next_multiple_of`. -/
def next_multiple_of (value rhs : Nat) : Nat :=
  let r := value % rhs
  if r = 0 then value else value + (rhs - r)

/-- `log.rs` `Entry`. -/
structure Entry where
  header : LogEntryHeader
  descriptors : List Descriptor
  data_sectors : List DataSector
  deriving DecidableEq

/-- `Entry::read`: header, `descriptor_count` descriptors, alignment to the
next 4 KiB boundary, one `DataSector` per Data descriptor (in order), and
the final-position assertion against `entry_length`. -/
def Entry.read (f : MFile) (pos : Nat) : Outcome (Entry × Nat) :=
  match LogEntryHeader.read f pos with
  | .ok (header, p1) =>
    match readDescriptors f header.descriptor_count p1 with
    | .ok (descriptors, p2) =>
      let p3 := next_multiple_of p2 (4 * KB)
      let num_data_sectors := (descriptors.filter Descriptor.isData).length
      match readDataSectors f num_data_sectors p3 with
      | .ok (data_sectors, p4) =>
        if ¬ (p4 = pos + header.entry_length) then .panic .assertionFailed
        else .ok ({ header := header, descriptors := descriptors,
                    data_sectors := data_sectors }, p4)
      | .err er => .err er
      | .panic m => .panic m
      | .diverge => .diverge
    | .err er => .err er
    | .panic m => .panic m
    | .diverge => .diverge
  | .err er => .err er
  | .panic m => .panic m
  | .diverge => .diverge

/-- `lib.rs` `LogSequence`: entries in tail-to-head order; each entry is
paired with its offset from the start of the log region. -/
structure LogSequence where
  sequence_number : Nat
  entries : List (Nat × Entry)
  deriving DecidableEq

/-- `LogSequence::head`: the last (newest) entry. -/
def LogSequence.head (s : LogSequence) : Option (Nat × Entry) :=
  s.entries.getLast?

/-- `LogSequence::is_valid`: non-empty, and the head entry's declared `tail`
field equals one of the recorded offsets-within-log.  (As the source notes,
this does not itself check consecutive sequence numbers.) -/
def LogSequence.is_valid (s : LogSequence) : Bool :=
  match s.entries.getLast? with
  | none => false
  | some (_, head) => s.entries.any fun pe => pe.1 = head.header.tail

/-- The head entry's sequence number, as read through the source's
`current.head().unwrap().header().sequence_number` (only evaluated when the
sequence is non-empty; the `none` branch stands for the impossible
`unwrap`). -/
def LogSequence.headSeq (s : LogSequence) : Nat :=
  match s.entries.getLast? with
  | none => 0
  | some (_, e) => e.header.sequence_number

/-- The inner scan loop (Step 3) of `Vhdx::find_log`: starting at `pos`,
parse consecutive entries, extending `current` with every entry that either
starts the sequence or continues it with sequence number `head + 1`;
entries with the right GUID but the wrong sequence number are skipped; a
GUID mismatch or an invalid signature ends the scan, returning the
accumulated sequence and the position of its head entry. -/
def scanEntries (f : MFile) (log_guid : Guid) (log_offset : Nat) :
    Nat → Nat → LogSequence → Nat → Outcome (LogSequence × Nat)
  | 0, _, _, _ => .diverge
  | fuel + 1, pos, current, head_value =>
    match Entry.read f pos with
    | .ok (entry, pos') =>
      if ¬ (entry.header.log_guid = log_guid) then .ok (current, head_value)
      else if current.entries.isEmpty then
        scanEntries f log_guid log_offset fuel pos'
          { sequence_number := entry.header.sequence_number,
            entries := [(pos - log_offset, entry)] } pos
      else if entry.header.sequence_number = current.headSeq + 1 then
        scanEntries f log_guid log_offset fuel pos'
          { current with entries := current.entries ++ [(pos - log_offset, entry)] } pos
      else
        scanEntries f log_guid log_offset fuel pos' current head_value
    | .err .invalidSignature => .ok (current, head_value)
    | .err er => .err er
    | .panic m => .panic m
    | .diverge => .diverge

/-- The outer loop (Steps 2-7) of `Vhdx::find_log`: repeatedly scan from
`current_tail`, keep the valid sequence with the highest sequence number as
`candidate`, advance the tail (by one 4 KiB sector with ring wrap-around
when the scan was empty or invalid, otherwise to the head position), and
stop as soon as the tail moves backwards. -/
def findLogLoop (f : MFile) (log_guid : Guid) (log_offset log_length inner_fuel : Nat) :
    Nat → Nat → Nat → LogSequence → Outcome LogSequence
  | 0, _, _, _ => .diverge
  | fuel + 1, current_tail, old_tail, candidate =>
    match scanEntries f log_guid log_offset inner_fuel current_tail
        { sequence_number := 0, entries := [] } current_tail with
    | .ok (current, head_value) =>
      let is_current_sequence_valid := current.is_valid
      let is_current_sequence_empty := current.entries.isEmpty
      let candidate' :=
        if is_current_sequence_valid ∧ current.sequence_number > candidate.sequence_number
        then current else candidate
      let current_tail' :=
        if is_current_sequence_empty ∨ ¬ is_current_sequence_valid then
          let t := current_tail + 4 * KB
          if t ≥ log_offset + log_length then t - log_length else t
        else head_value
      if current_tail' < old_tail then .ok candidate'
      else findLogLoop f log_guid log_offset log_length inner_fuel fuel
        current_tail' current_tail' candidate'
    | .err er => .err er
    | .panic m => .panic m
    | .diverge => .diverge

/-- `Vhdx::find_log`: run the discovery loop from `log_offset`, then the
post-loop checks — panic when no valid sequence was found, and panic when
the file has been truncated past the head's `flushed_file_offset`
(`file_size` is obtained by seeking to the end of the file). -/
def findLog (f : MFile) (log_guid : Guid) (log_offset log_length outer_fuel inner_fuel : Nat) :
    Outcome LogSequence :=
  match findLogLoop f log_guid log_offset log_length inner_fuel outer_fuel
      log_offset log_offset { sequence_number := 0, entries := [] } with
  | .ok candidate =>
    if candidate.entries.isEmpty then .panic .noValidLogSequences
    else
      match candidate.head with
      | none => .panic .unwrapNone
      | some (_, head) =>
        if f.size < head.header.flushed_file_offset then .panic .fileTruncated
        else .ok candidate
  | .err er => .err er
  | .panic m => .panic m
  | .diverge => .diverge

/-- `Reader::read` from `lib.rs`, with the reader's cursor (`self.offset`)
and the destination buffer length passed explicitly.  Returns the number of
bytes reported read, the bytes written into the destination prefix, and the
new cursor.  The cursor is advanced by `num_to_read` before the state
dispatch, exactly as in the source.  The explicit `subtractOverflow` guard
models the u64 underflow of `block_size - offset` (unreachable when the BAT
was decoded from the same metadata).  In the `FullyPresent` branch the
single underlying `File::read` returns the bytes available before
end-of-file, capped at the request. -/
def readerRead (file : MFile) (metadata : Metadata) (bat : Bat) (offset buf_len : Nat) :
    Outcome (Nat × List Nat × Nat) :=
  match bat.offset_to_entry offset with
  | .ok (entry, entry_offset) =>
    let block_size := metadata.file_parameters.block_size
    if block_size < entry_offset then .panic .subtractOverflow
    else
      let bytes_remaining_in_block := block_size - entry_offset
      let num_to_read := min buf_len bytes_remaining_in_block
      let new_offset := offset + num_to_read
      match entry.state with
      | .notPresent | .undefined | .zero | .unmapped =>
        .ok (num_to_read, List.replicate num_to_read 0, new_offset)
      | .fullyPresent =>
        let pos := entry.file_offset + entry_offset
        let avail := file.size - pos
        let n := min num_to_read avail
        .ok (n, (List.range n).map (fun i => file.byteAt (pos + i) % 256), new_offset)
      | .partiallyPresent => .panic .differentialDisks
  | .err er => .err er
  | .panic m => .panic m
  | .diverge => .diverge

/-- `std::io::SeekFrom`. -/
inductive SeekFrom where
  | start : Nat → SeekFrom
  | fromEnd : Int → SeekFrom
  | current : Int → SeekFrom
  deriving DecidableEq

/-- `u64::checked_add_signed`: `Some` exactly when the signed sum is
representable as a u64. -/
def checked_add_signed (a : Nat) (b : Int) : Option Nat :=
  if 0 ≤ (a : Int) + b ∧ (a : Int) + b < (2 : Int) ^ 64 then ((a : Int) + b).toNat else none

/-- `Reader::seek` from `lib.rs`: start-relative sets the cursor directly,
end-relative anchors at `virtual_disk_size`, current-relative at the
cursor; the two signed cases go through
`checked_add_signed(..).unwrap()`, so an unrepresentable result is a panic.
Returns the new cursor (the source returns `Ok(self.offset)`). -/
def readerSeek (virtual_disk_size offset : Nat) (pos : SeekFrom) : Outcome Nat :=
  match pos with
  | .start o => .ok o
  | .fromEnd from_end =>
    match checked_add_signed virtual_disk_size from_end with
    | some v => .ok v
    | none => .panic .unwrapNone
  | .current d =>
    match checked_add_signed offset d with
    | some v => .ok v
    | none => .panic .unwrapNone

/-- Overwrite `count` consecutive 4 KiB sectors with zeros starting at
byte position `pos` (the `for _ in 0..num_sectors { write_all(&ZEROS) }`
loop of the Zero branch). -/
def writeZeroSectors (f : MFile) : Nat → Nat → MFile
  | _, 0 => f
  | pos, n + 1 =>
    writeZeroSectors
      { size := f.size,
        byteAt := fun i => if pos ≤ i ∧ i < pos + 4 * KB then 0 else f.byteAt i }
      (pos + 4 * KB) n

/-- The `Descriptor::Zero` branch of `Vhdx::try_replay_log`, for one
descriptor of an entry with sequence number `entry_sequence_number`:
panic on a sequence-number mismatch; panic when the write start is at or
past the end of the file, or when `file_offset + zero_length >=
file_length` (both panics carry the same source message); otherwise write
`zero_length / 4 KiB` zero sectors at `file_offset`. -/
def applyZeroDescriptor (f : MFile) (entry_sequence_number : Nat) (desc : ZeroDescriptor) :
    Outcome MFile :=
  if ¬ (desc.sequence_number = entry_sequence_number) then .panic .wrongDescriptorSequence
  else
    let file_length := f.size
    if desc.file_offset ≥ file_length then .panic .zerosWriteBounds
    else if desc.file_offset + desc.zero_length ≥ file_length then .panic .zerosWriteBounds
    else .ok (writeZeroSectors f desc.file_offset (desc.zero_length / (4 * KB)))

/-- Little-endian encoding of `n` into `k` bytes. -/
def leBytes (k n : Nat) : List Nat :=
  (List.range k).map fun i => n / 256 ^ i % 256

/-- Wire bytes of a nonzero test GUID (`data_1 = 1`, rest zero). -/
def testGuidBytes : List Nat := 1 :: List.replicate 15 0

/-- The parsed form of `testGuidBytes`. -/
def testGuid : Guid := Guid.from_bytes testGuidBytes

/-- The 64 header bytes of a descriptor-free 4 KiB log entry with the given
sequence number, `tail` field, `flushed_file_offset`, and the test GUID. -/
def logHdrBytes (seq tail flushed : Nat) : List Nat :=
  logEntrySig ++ [0, 0, 0, 0] ++ leBytes 4 4096 ++ leBytes 4 tail ++ leBytes 8 seq ++
    leBytes 4 0 ++ [0, 0, 0, 0] ++ testGuidBytes ++ leBytes 8 flushed ++ leBytes 8 0

/-- Byte function of a file whose 1 MiB log region at offset 1 MiB holds two
consecutive descriptor-free entries (sequence numbers 1 and 2, both with
`tail = 0` and the given `flushed_file_offset`); all other bytes are zero. -/
def twoEntryLogByteAt (flushed i : Nat) : Nat :=
  if MB ≤ i ∧ i < MB + 64 then (logHdrBytes 1 0 flushed).getD (i - MB) 0
  else if MB + 4096 ≤ i ∧ i < MB + 4096 + 64 then (logHdrBytes 2 0 flushed).getD (i - (MB + 4096)) 0
  else 0

/-- A truncated disk: its two-entry log declares `flushed_file_offset = 2
MiB` but the file ends 4032 bytes short of the end of the log region. -/
def c2file : MFile := { size := 2 * MB - 4032, byteAt := twoEntryLogByteAt (2 * MB) }

/-- The same two-entry log with `flushed_file_offset = 0`, so the
truncation check passes. -/
def c4file : MFile := { size := 2 * MB - 4032, byteAt := twoEntryLogByteAt 0 }

/-- The parsed header of one of the two-entry-log entries. -/
def logHdrOf (seq tail flushed : Nat) : LogEntryHeader :=
  { signature := logEntrySig, checksum := [0, 0, 0, 0], entry_length := 4096, tail := tail,
    sequence_number := seq, descriptor_count := 0, log_guid := testGuid,
    flushed_file_offset := flushed, last_file_offset := 0 }

/-- The parsed form of one of the two-entry-log entries. -/
def logEntryOf (seq tail flushed : Nat) : Entry :=
  { header := logHdrOf seq tail flushed, descriptors := [], data_sectors := [] }

/-- The active sequence that `find_log` discovers in `c2file`. -/
def c2cand : LogSequence :=
  { sequence_number := 1,
    entries := [(0, logEntryOf 1 0 (2 * MB)), (4096, logEntryOf 2 0 (2 * MB))] }

/-- The active sequence that `find_log` discovers in `c4file`. -/
def c4cand : LogSequence :=
  { sequence_number := 1,
    entries := [(0, logEntryOf 1 0 0), (4096, logEntryOf 2 0 0)] }

/-- Metadata of a 1 MiB dynamic disk with 1 MiB blocks and 512-byte logical
sectors. -/
def c1md : Metadata :=
  { file_parameters := { block_size := MB, leave_block_allocated := false, has_parent := false },
    virtual_disk_size := { virtual_disk_size := MB },
    virtual_disk_id := { virtual_disk_id := Guid.ZERO },
    logical_sector_size := { logical_sector_size := 512 },
    physical_sector_size := { physical_sector_size := 512 },
    parent_locator := none }

/-- A BAT region holding a single all-zero 8-byte entry. -/
def c1batfile : MFile := { size := 8, byteAt := fun _ => 0 }

/-- The BAT decoded from `c1batfile` under `c1md`. -/
def c1bat : Bat :=
  { block_size := MB, chunk_ratio := 8192, entries := [{ state := .notPresent, file_offset := 0 }] }

/-- A 32-byte all-zero metadata-table entry: `length = 0` and `offset = 0`,
i.e. an empty entry. -/
def c5file : MFile := { size := 32, byteAt := fun _ => 0 }

/-- An 8 KiB file of nonzero bytes for the Zero-descriptor replay claim. -/
def c9file : MFile := { size := 2 * (4 * KB), byteAt := fun _ => 1 }

/-- A Zero descriptor whose write ends exactly at the end of `c9file`. -/
def c9desc : ZeroDescriptor :=
  { signature := zeroDescriptorSig, zero_length := 4 * KB, file_offset := 4 * KB,
    sequence_number := 5 }

/-- Header bytes of an 8 KiB log entry with one Data descriptor. -/
def c10HdrBytes : List Nat :=
  logEntrySig ++ [0, 0, 0, 0] ++ leBytes 4 8192 ++ leBytes 4 0 ++ leBytes 8 7 ++
    leBytes 4 1 ++ [0, 0, 0, 0] ++ List.replicate 16 0 ++ leBytes 8 0 ++ leBytes 8 0

/-- Bytes of the single Data descriptor of the `c10` entry. -/
def c10DescBytes : List Nat :=
  dataDescriptorSig ++ [0, 0, 0, 0] ++ List.replicate 8 0 ++ leBytes 8 4096 ++ leBytes 8 7

/-- Byte function of a file holding one log entry with one Data descriptor
and its data sector. -/
def c10byteAt (i : Nat) : Nat :=
  if i < 64 then c10HdrBytes.getD i 0
  else if 64 ≤ i ∧ i < 96 then c10DescBytes.getD (i - 64) 0
  else if 4096 ≤ i ∧ i < 4100 then dataSectorSig.getD (i - 4096) 0
  else 0

/-- The file holding the `c10` entry. -/
def c10file : MFile := { size := 8192, byteAt := c10byteAt }

/-- The parsed form of the `c10` entry. -/
def c10entry : Entry :=
  { header := { signature := logEntrySig, checksum := [0, 0, 0, 0], entry_length := 8192,
                tail := 0, sequence_number := 7, descriptor_count := 1, log_guid := Guid.ZERO,
                flushed_file_offset := 0, last_file_offset := 0 },
    descriptors := [.data { signature := dataDescriptorSig, trailing_bytes := [0, 0, 0, 0],
                            leading_bytes := List.replicate 8 0, file_offset := 4096,
                            sequence_number := 7 }],
    data_sectors := [{ signature := dataSectorSig, sequence_high := 0,
                       data := List.replicate 4084 0, sequence_low := 0 }] }

/-- All entries of a log sequence carry the given log GUID. -/
def guidAll (g : Guid) (l : List (Nat × Entry)) : Prop :=
  ∀ pe ∈ l, pe.2.header.log_guid = g

/-- The entries of a log sequence carry strictly consecutive sequence
numbers from tail to head. -/
def consecutive (l : List (Nat × Entry)) : Prop :=
  List.Chain' (fun a b => b.2.header.sequence_number = a.2.header.sequence_number + 1) l

/-- Invariant carried by `find_log`'s candidate sequence: it is either still
empty or valid with matching GUIDs and consecutive sequence numbers. -/
def seqInv (g : Guid) (s : LogSequence) : Prop :=
  s.entries = [] ∨ (s.is_valid = true ∧ guidAll g s.entries ∧ consecutive s.entries)

theorem readBatEntries_length (f : MFile) :
    ∀ (n pos : Nat) (l : List BatEntry) (p : Nat),
      readBatEntries f n pos = .ok (l, p) → l.length = n := by
  intro n
  induction n with
  | zero =>
    intro pos l p h
    simp only [readBatEntries] at h
    cases h
    rfl
  | succ n ih =>
    intro pos l p h
    simp only [readBatEntries] at h
    split at h
    · split at h
      · cases h
        simp [ih _ _ _ (by assumption)]
      · cases h
      · cases h
      · cases h
    · cases h
    · cases h
    · cases h

theorem readDataSectors_length (f : MFile) :
    ∀ (n pos : Nat) (l : List DataSector) (p : Nat),
      readDataSectors f n pos = .ok (l, p) → l.length = n := by
  intro n
  induction n with
  | zero =>
    intro pos l p h
    simp only [readDataSectors] at h
    cases h
    rfl
  | succ n ih =>
    intro pos l p h
    simp only [readDataSectors] at h
    split at h
    · split at h
      · cases h
        simp [ih _ _ _ (by assumption)]
      · cases h
      · cases h
      · cases h
    · cases h
    · cases h
    · cases h

theorem bat_read_facts (f : MFile) (pos : Nat) (md : Metadata) (b : Bat) (pos' : Nat)
    (h : Bat.read f pos md = .ok (b, pos')) :
    b.block_size = md.file_parameters.block_size ∧
    b.chunk_ratio = (2 <<< 23) * md.logical_sector_size.logical_sector_size /
      md.file_parameters.block_size ∧
    0 < md.file_parameters.block_size ∧
    0 < b.chunk_ratio ∧
    0 < div_ceil md.virtual_disk_size.virtual_disk_size md.file_parameters.block_size ∧
    div_ceil md.virtual_disk_size.virtual_disk_size md.file_parameters.block_size - 1 <
      b.chunk_ratio ∧
    b.entries.length =
      div_ceil md.virtual_disk_size.virtual_disk_size md.file_parameters.block_size := by
  simp only [Bat.read] at h
  split at h
  · cases h
  rename_i hbs0
  split at h
  · cases h
  rename_i hp0
  split at h
  · cases h
  rename_i hcr0
  split at h
  · cases h
  rename_i htot
  split at h
  case _ entries p hread =>
    cases h
    have hlen := readBatEntries_length f _ _ _ _ hread
    have hcrpos : 0 < (2 <<< 23) * md.logical_sector_size.logical_sector_size /
        md.file_parameters.block_size := Nat.pos_of_ne_zero hcr0
    have hx : (div_ceil md.virtual_disk_size.virtual_disk_size
        md.file_parameters.block_size - 1) /
        ((2 <<< 23) * md.logical_sector_size.logical_sector_size /
          md.file_parameters.block_size) = 0 := by
      have h2 := not_not.mp htot
      rwa [Nat.add_sub_cancel_left] at h2
    refine ⟨rfl, rfl, Nat.pos_of_ne_zero hbs0, hcrpos, Nat.pos_of_ne_zero hp0,
      (Nat.div_eq_zero_iff hcrpos).mp hx, ?_⟩
    simp only [hlen, hx, Nat.add_zero]
  · cases h
  · cases h
  · cases h

theorem lt_div_ceil_of_lt (o v bs : Nat) (hbs : 0 < bs) (h : o < v) :
    o / bs < div_ceil v bs := by
  unfold div_ceil
  by_cases hr : v % bs = 0
  · simp only [hr, gt_iff_lt, Nat.lt_irrefl, false_and, if_false]
    exact Nat.div_lt_div_of_lt_of_dvd (Nat.dvd_of_mod_eq_zero hr) h
  · have hc : v % bs > 0 ∧ bs > 0 := ⟨Nat.pos_of_ne_zero hr, hbs⟩
    simp only [if_pos hc]
    exact Nat.lt_succ_of_le (Nat.div_le_div_right (Nat.le_of_lt h))

theorem offset_to_entry_spec (f : MFile) (pos : Nat) (md : Metadata) (bat : Bat)
    (pos' o : Nat) (h : Bat.read f pos md = .ok (bat, pos'))
    (ho : o < md.virtual_disk_size.virtual_disk_size) :
    ∃ entry,
      bat.entries.get? (o / bat.block_size) = some entry ∧
      bat.offset_to_entry o = .ok (entry, o % bat.block_size) ∧
      o / bat.block_size / bat.chunk_ratio = 0 ∧
      o / bat.block_size + o / bat.block_size / bat.chunk_ratio < bat.entries.length ∧
      o % bat.block_size < bat.block_size ∧
      bat.block_size = md.file_parameters.block_size := by
  obtain ⟨hbs, _, hbspos, hcrpos, hpay, hlt, hlen⟩ := bat_read_facts f pos md bat pos' h
  have hpbi : o / bat.block_size < div_ceil md.virtual_disk_size.virtual_disk_size
      md.file_parameters.block_size := by
    rw [hbs]
    exact lt_div_ceil_of_lt o _ _ hbspos ho
  have hsbb : o / bat.block_size / bat.chunk_ratio = 0 :=
    Nat.div_eq_of_lt (by omega)
  have hidx : o / bat.block_size + o / bat.block_size / bat.chunk_ratio <
      bat.entries.length := by
    rw [hsbb, hlen]
    simpa using hpbi
  have hbspos' : 0 < bat.block_size := by rw [hbs]; exact hbspos
  have hget := List.get?_eq_get (l := bat.entries)
    (n := o / bat.block_size + o / bat.block_size / bat.chunk_ratio) hidx
  refine ⟨bat.entries.get ⟨_, hidx⟩, ?_, ?_, hsbb, hidx, Nat.mod_lt _ hbspos', hbs⟩
  · rw [← hget, hsbb, Nat.add_zero]
  · have hres : o - o / bat.block_size * bat.block_size = o % bat.block_size := by
      have h1 := Nat.mod_add_div o bat.block_size
      have h2 : o / bat.block_size * bat.block_size = bat.block_size * (o / bat.block_size) :=
        Nat.mul_comm _ _
      omega
    simp only [Bat.offset_to_entry]
    rw [hget, hres]

/-- Claim C3: for every successfully decoded BAT and every virtual offset
`o` strictly below the virtual disk size, `offset_to_entry` succeeds: the
computed `bat_index` is strictly below `total_bat_entries` (the length of
the decoded entry list), the interleaved sector-bitmap correction is zero
(so the slot is a payload slot — a successful decode implies the BAT holds
no sector-bitmap entries at all), and the returned residual equals
`o % block_size`, which lies in `[0, block_size)`. -/
theorem c3_offset_to_entry_in_bounds (f : MFile) (pos : Nat) (md : Metadata) (bat : Bat)
    (pos' o : Nat) (h : Bat.read f pos md = .ok (bat, pos'))
    (ho : o < md.virtual_disk_size.virtual_disk_size) :
    ∃ entry,
      bat.entries.get? (o / bat.block_size) = some entry ∧
      bat.offset_to_entry o = .ok (entry, o % bat.block_size) ∧
      o / bat.block_size / bat.chunk_ratio = 0 ∧
      o / bat.block_size + o / bat.block_size / bat.chunk_ratio < bat.entries.length ∧
      o % bat.block_size < bat.block_size ∧
      bat.block_size = md.file_parameters.block_size :=
  offset_to_entry_spec f pos md bat pos' o h ho

/-- Witness for C3 at a concrete decoded BAT (1 MiB disk, 1 MiB blocks,
512-byte logical sectors) and the concrete offset `o = 4096`. -/
theorem c3_offset_to_entry_in_bounds_witness :
    Bat.read c1batfile 0 c1md = .ok (c1bat, 8) ∧
    (4096 : Nat) < c1md.virtual_disk_size.virtual_disk_size ∧
    ∃ entry,
      c1bat.entries.get? (4096 / c1bat.block_size) = some entry ∧
      c1bat.offset_to_entry 4096 = .ok (entry, 4096 % c1bat.block_size) ∧
      4096 / c1bat.block_size / c1bat.chunk_ratio = 0 ∧
      4096 / c1bat.block_size + 4096 / c1bat.block_size / c1bat.chunk_ratio <
        c1bat.entries.length ∧
      4096 % c1bat.block_size < c1bat.block_size ∧
      c1bat.block_size = c1md.file_parameters.block_size := by
  have h : Bat.read c1batfile 0 c1md = .ok (c1bat, 8) := by decide
  exact ⟨h, by decide, c3_offset_to_entry_in_bounds c1batfile 0 c1md c1bat 8 4096 h (by decide)⟩

/-- Claim C1 (code bug): the source computes the chunk ratio as
`(2 << 23) * logical_sector_size / block_size`, and `2 << 23 = 2^24`, so
for `logical_sector_size = 512` and `block_size = 1 MiB` the stored
`chunk_ratio` is `8192`, not the `4096` demanded by the claim (and by the
VHDX specification formula `(2^23 * logical_sector_size) / block_size`). -/
theorem c1_chunk_ratio_doubled :
    Bat.read c1batfile 0 c1md = .ok (c1bat, 8) ∧
    c1md.logical_sector_size.logical_sector_size = 512 ∧
    c1md.file_parameters.block_size = MB ∧
    c1bat.chunk_ratio = 8192 ∧
    ¬ c1bat.chunk_ratio = 4096 := by
  refine ⟨by decide, by decide, by decide, by decide, by decide⟩

/-- Claim C5 (code bug): a metadata-table entry with `length = 0` and
`offset = 0` (an empty entry) does not parse successfully — the source's
unconditional `assert!(offset >= 64 * KB)` fires first, so
`MetadataTableEntry::read` panics on the all-zero entry instead of
returning it marked `is_empty`. -/
theorem c5_empty_entry_parse_panics :
    MetadataTableEntry.read c5file 0 = .panic .assertionFailed := by
  decide

/-- Claim C9 (code bug): a Zero descriptor whose write ends exactly at the
current end of the file (`file_offset + zero_length = file_length`)
satisfies the claim's precondition `file_offset + zero_length ≤
file_length` and matches the entry's sequence number, yet the replay
panics, because the source checks `file_offset + zero_length >=
file_length` (with a panic message that itself claims a strict
inequality). -/
theorem c9_zero_write_ending_at_eof_panics :
    c9desc.sequence_number = 5 ∧
    c9desc.file_offset + c9desc.zero_length = c9file.size ∧
    applyZeroDescriptor c9file 5 c9desc = .panic .zerosWriteBounds := by
  exact ⟨rfl, rfl, rfl⟩

/-- Claim C8 (amended): `Reader::seek` accepts start-, current-, and
end-relative positioning, with end-relative anchored at
`virtual_disk_size`; but when the resulting position would overflow or
underflow a u64 the source panics (`checked_add_signed(..).unwrap()` on
`None`) instead of returning an `InvalidSeek` error value — indeed the
crate's `Error` type has no such variant. -/
theorem c8_seek_semantics (virtual_disk_size offset o : Nat) (d : Int) :
    readerSeek virtual_disk_size offset (.start o) = .ok o ∧
    (0 ≤ (virtual_disk_size : Int) + d ∧ (virtual_disk_size : Int) + d < 2 ^ 64 →
      readerSeek virtual_disk_size offset (.fromEnd d) =
        .ok ((virtual_disk_size : Int) + d).toNat) ∧
    ((virtual_disk_size : Int) + d < 0 ∨ 2 ^ 64 ≤ (virtual_disk_size : Int) + d →
      readerSeek virtual_disk_size offset (.fromEnd d) = .panic .unwrapNone) ∧
    (0 ≤ (offset : Int) + d ∧ (offset : Int) + d < 2 ^ 64 →
      readerSeek virtual_disk_size offset (.current d) = .ok ((offset : Int) + d).toNat) ∧
    ((offset : Int) + d < 0 ∨ 2 ^ 64 ≤ (offset : Int) + d →
      readerSeek virtual_disk_size offset (.current d) = .panic .unwrapNone) := by
  refine ⟨rfl, ?_, ?_, ?_, ?_⟩
  · intro hin
    simp only [readerSeek, checked_add_signed, if_pos hin]
  · intro hout
    simp only [readerSeek, checked_add_signed]
    rw [if_neg (by omega)]
  · intro hin
    simp only [readerSeek, checked_add_signed, if_pos hin]
  · intro hout
    simp only [readerSeek, checked_add_signed]
    rw [if_neg (by omega)]

/-- Witness for C8 (amended): an in-range end-relative seek lands at
`virtual_disk_size + delta`, and an underflowing one panics. -/
theorem c8_seek_semantics_witness :
    readerSeek 10 0 (.fromEnd (-3)) = .ok 7 ∧
    readerSeek 0 5 (.fromEnd (-1)) = .panic .unwrapNone := by
  exact ⟨(c8_seek_semantics 10 0 0 (-3)).2.1 (by constructor <;> decide),
    (c8_seek_semantics 0 5 0 (-1)).2.2.1 (Or.inl (by decide))⟩

/-- Counterexample to C8 as stated: an underflowing end-relative seek does
not produce an error value; it panics (the `Error` type has no
`InvalidSeek` variant, and the panic outcome is not an `err`). -/
theorem c8_counterexample :
    readerSeek 0 0 (.fromEnd (-1)) = .panic .unwrapNone := by
  decide

/-- Claim C6: when the reader's cursor lands in a block whose BAT entry has
state `NotPresent`, `Undefined`, `Zero`, or `Unmapped`, `Reader::read`
fills the destination with zeros and reports `num_to_read` bytes read,
where `num_to_read = min (buffer length) (block_size - residual)` and the
residual of a cursor inside the disk is `cursor % block_size`; the cursor
advances by `num_to_read`. -/
theorem c6_zero_state_read_returns_zeros (file f0 : MFile) (p0 : Nat) (md : Metadata)
    (bat : Bat) (pos' r buf_len res : Nat) (entry : BatEntry)
    (h : Bat.read f0 p0 md = .ok (bat, pos'))
    (ho : r < md.virtual_disk_size.virtual_disk_size)
    (hlookup : bat.offset_to_entry r = .ok (entry, res))
    (hstate : entry.state = .notPresent ∨ entry.state = .undefined ∨
      entry.state = .zero ∨ entry.state = .unmapped) :
    readerRead file md bat r buf_len =
      .ok (min buf_len (md.file_parameters.block_size - r % md.file_parameters.block_size),
        List.replicate
          (min buf_len (md.file_parameters.block_size - r % md.file_parameters.block_size)) 0,
        r + min buf_len (md.file_parameters.block_size - r % md.file_parameters.block_size)) := by
  obtain ⟨entry₀, _, hlookup₀, _, _, hreslt, hbs⟩ := offset_to_entry_spec f0 p0 md bat pos' r h ho
  rw [hlookup₀] at hlookup
  have hent : entry₀ = entry ∧ r % bat.block_size = res := by
    cases hlookup
    exact ⟨rfl, rfl⟩
  obtain ⟨hent₁, hent₂⟩ := hent
  simp only [readerRead, hlookup₀, hent₁]
  rw [if_neg (by rw [← hbs]; omega)]
  rw [← hbs]
  rcases hstate with hs | hs | hs | hs <;> rw [hs]

/-- Witness for C6: a cursor at 4096 inside a `NotPresent` 1 MiB block of a
1 MiB disk, with a 100-byte buffer. -/
theorem c6_zero_state_read_returns_zeros_witness :
    Bat.read c1batfile 0 c1md = .ok (c1bat, 8) ∧
    readerRead c1batfile c1md c1bat 4096 100 = .ok (100, List.replicate 100 0, 4196) := by
  have h : Bat.read c1batfile 0 c1md = .ok (c1bat, 8) := by decide
  have hl : c1bat.offset_to_entry 4096 =
      .ok ({ state := .notPresent, file_offset := 0 }, 4096) := by decide
  refine ⟨h, ?_⟩
  have hr := c6_zero_state_read_returns_zeros c1batfile c1batfile 0 c1md c1bat 8 4096 100
    4096 { state := .notPresent, file_offset := 0 } h (by decide) hl (Or.inl rfl)
  exact hr

/-- Claim C7 (amended): seeking to `virtual_disk_size` and reading does not
produce the 0-byte end-of-file result; whenever the block size divides the
virtual disk size (always the case for a well-formed dynamic disk, and in
particular in the other cases the read returns a positive count instead),
the BAT lookup for offset `virtual_disk_size` is out of bounds and
`Reader::read` panics on the `unwrap`. -/
theorem c7_read_at_disk_size_panics (file f0 : MFile) (p0 : Nat) (md : Metadata)
    (bat : Bat) (pos' buf_len : Nat)
    (h : Bat.read f0 p0 md = .ok (bat, pos'))
    (hdvd : md.file_parameters.block_size ∣ md.virtual_disk_size.virtual_disk_size)
    (hbuf : 0 < buf_len) :
    readerRead file md bat md.virtual_disk_size.virtual_disk_size buf_len =
      .panic .unwrapNone := by
  obtain ⟨hbs, _, hbspos, _, hpay, _, hlen⟩ := bat_read_facts f0 p0 md bat pos' h
  have hmod : md.virtual_disk_size.virtual_disk_size % md.file_parameters.block_size = 0 :=
    Nat.mod_eq_zero_of_dvd hdvd
  have hceil : div_ceil md.virtual_disk_size.virtual_disk_size md.file_parameters.block_size =
      md.virtual_disk_size.virtual_disk_size / md.file_parameters.block_size := by
    unfold div_ceil
    simp [hmod]
  have hnone : bat.entries.get?
      (md.virtual_disk_size.virtual_disk_size / bat.block_size +
        md.virtual_disk_size.virtual_disk_size / bat.block_size / bat.chunk_ratio) = none := by
    rw [List.get?_eq_none]
    rw [hlen, hceil, hbs]
    exact Nat.le_add_right _ _
  have hlookup : bat.offset_to_entry md.virtual_disk_size.virtual_disk_size =
      .panic .unwrapNone := by
    simp only [Bat.offset_to_entry, hnone]
  simp only [readerRead, hlookup]

/-- Witness for C7 (amended): the 1 MiB disk with 1 MiB blocks; reading at
offset `virtual_disk_size = 1 MiB` panics. -/
theorem c7_read_at_disk_size_panics_witness :
    Bat.read c1batfile 0 c1md = .ok (c1bat, 8) ∧
    readerRead c1batfile c1md c1bat MB 4096 = .panic .unwrapNone := by
  have h : Bat.read c1batfile 0 c1md = .ok (c1bat, 8) := by decide
  exact ⟨h, c7_read_at_disk_size_panics c1batfile c1batfile 0 c1md c1bat 8 4096 h
    (by decide) (by decide)⟩

/-- Counterexample to C7 as stated: on a loaded 1 MiB disk, seeking the
reader to `virtual_disk_size` (an end-relative seek by 0) succeeds, but
the subsequent read with a non-empty buffer does not return `ok` with 0
bytes — it panics on the out-of-bounds BAT lookup. -/
theorem c7_counterexample :
    Bat.read c1batfile 0 c1md = .ok (c1bat, 8) ∧
    readerSeek MB 0 (.fromEnd 0) = .ok MB ∧
    readerRead c1batfile c1md c1bat MB 4096 = .panic .unwrapNone := by
  refine ⟨by decide, by decide, by decide⟩

theorem sliceOf_map_range (g : Nat → Nat) (n s l : Nat) (h : s + l ≤ n) :
    sliceOf ((List.range n).map g) s l = (List.range l).map fun i => g (s + i) := by
  apply List.ext_getElem
  · simp only [sliceOf, List.length_take, List.length_drop, List.length_map, List.length_range]
    omega
  · intro i h1 h2
    simp only [sliceOf, List.getElem_take, List.getElem_drop, List.getElem_map,
      List.getElem_range]

/-- Claim C10: every successfully parsed log entry holds exactly one stored
data sector per Data descriptor, so the sequential data-sector index used
during replay (one increment per Data descriptor, starting at zero) stays
strictly below the length of the entry's data-sector list. -/
theorem c10_data_sectors_match_descriptors (f : MFile) (pos pos' : Nat) (e : Entry)
    (h : Entry.read f pos = .ok (e, pos')) :
    e.data_sectors.length = (e.descriptors.filter Descriptor.isData).length ∧
    ∀ j, j < (e.descriptors.filter Descriptor.isData).length →
      j < e.data_sectors.length := by
  simp only [Entry.read] at h
  split at h
  case _ header p1 hh =>
    split at h
    case _ descriptors p2 hd =>
      split at h
      case _ data_sectors p4 hs =>
        split at h
        · cases h
        · cases h
          have hlen := readDataSectors_length f _ _ _ _ hs
          refine ⟨by simpa using hlen, ?_⟩
          intro j hj
          simpa [hlen] using hj
      · cases h
      · cases h
      · cases h
    · cases h
    · cases h
    · cases h
  · cases h
  · cases h
  · cases h

theorem c10_sector_read :
    DataSector.read c10file 4096 =
      .ok ({ signature := dataSectorSig, sequence_high := 0,
             data := List.replicate 4084 0, sequence_low := 0 }, 8192) := by
  have hbuf : c10file.readExact 4096 4096 =
      some ((List.range 4096).map fun i => c10file.byteAt (4096 + i) % 256) := by
    unfold MFile.readExact
    rw [if_pos (by norm_num [c10file])]
  have s1 : sliceOf ((List.range 4096).map fun i => c10file.byteAt (4096 + i) % 256) 0 4 =
      dataSectorSig := by
    rw [sliceOf_map_range _ 4096 0 4 (by norm_num)]
    decide
  have s2 : leAt ((List.range 4096).map fun i => c10file.byteAt (4096 + i) % 256) 4 4 = 0 := by
    unfold leAt
    rw [sliceOf_map_range _ 4096 4 4 (by norm_num)]
    decide
  have s3 : sliceOf ((List.range 4096).map fun i => c10file.byteAt (4096 + i) % 256) 8 4084 =
      List.replicate 4084 0 := by
    rw [sliceOf_map_range _ 4096 8 4084 (by norm_num)]
    apply List.ext_getElem
    · simp only [List.length_map, List.length_range, List.length_replicate]
    · intro i h1 h2
      have hi : i < 4084 := by
        simpa only [List.length_replicate] using h2
      simp only [List.getElem_map, List.getElem_range, List.getElem_replicate]
      simp only [c10file, c10byteAt]
      rw [if_neg (by omega), if_neg (by omega), if_neg (by omega)]
  have s4 : leAt ((List.range 4096).map fun i => c10file.byteAt (4096 + i) % 256) 4092 4
      = 0 := by
    unfold leAt
    rw [sliceOf_map_range _ 4096 4092 4 (by norm_num)]
    decide
  simp only [DataSector.read]
  rw [hbuf]
  simp only [s1, s2, s3, s4]
  rfl

theorem c10_entry_read : Entry.read c10file 0 = .ok (c10entry, 8192) := by
  have hh : LogEntryHeader.read c10file 0 = .ok (c10entry.header, 64) := by decide
  have hd : readDescriptors c10file c10entry.header.descriptor_count 64 =
      .ok (c10entry.descriptors, 96) := by decide
  have hnum : (c10entry.descriptors.filter Descriptor.isData).length = 1 := by decide
  have hsec : readDataSectors c10file 1 (next_multiple_of 96 (4 * KB)) =
      .ok (c10entry.data_sectors, 8192) := by
    have h4096 : next_multiple_of 96 (4 * KB) = 4096 := by norm_num [next_multiple_of, KB]
    rw [h4096]
    show readDataSectors c10file (0 + 1) 4096 = _
    simp only [readDataSectors]
    rw [c10_sector_read]
    rfl
  simp only [Entry.read]
  rw [hh]
  simp only []
  rw [hd]
  simp only []
  rw [hnum, hsec]
  rfl

/-- Witness for C10 at a concrete parsed entry with one Data descriptor and
its one data sector. -/
theorem c10_data_sectors_match_descriptors_witness :
    Entry.read c10file 0 = .ok (c10entry, 8192) ∧
    (c10entry.data_sectors.length = (c10entry.descriptors.filter Descriptor.isData).length ∧
      ∀ j, j < (c10entry.descriptors.filter Descriptor.isData).length →
        j < c10entry.data_sectors.length) :=
  ⟨c10_entry_read, c10_data_sectors_match_descriptors c10file 0 8192 c10entry c10_entry_read⟩

theorem scanEntries_inv (f : MFile) (g : Guid) (l0 : Nat) :
    ∀ (fuel pos : Nat) (cur : LogSequence) (hv : Nat) (cur' : LogSequence) (hv' : Nat),
      scanEntries f g l0 fuel pos cur hv = .ok (cur', hv') →
      guidAll g cur.entries → consecutive cur.entries →
      guidAll g cur'.entries ∧ consecutive cur'.entries := by
  intro fuel
  induction fuel with
  | zero => intro pos cur hv cur' hv' h _ _; cases h
  | succ fuel ih =>
    intro pos cur hv cur' hv' h hg hc
    simp only [scanEntries] at h
    split at h
    case _ entry pos' hread =>
      split at h
      · cases h
        exact ⟨hg, hc⟩
      rename_i hguid
      split at h
      · rename_i hempty
        refine ih _ _ _ _ _ h ?_ ?_
        · intro pe hpe
          rw [List.mem_singleton] at hpe
          subst hpe
          exact not_not.mp hguid
        · exact List.chain'_singleton _
      rename_i hnonempty
      split at h
      · rename_i hseq
        have hlast : ∃ x, cur.entries.getLast? = some x := by
          rcases hx : cur.entries.getLast? with _ | x
          · rw [List.getLast?_eq_none_iff] at hx
            rw [hx] at hnonempty
            exact absurd rfl hnonempty
          · exact ⟨x, rfl⟩
        obtain ⟨x, hx⟩ := hlast
        refine ih _ _ _ _ _ h ?_ ?_
        · intro pe hpe
          rcases List.mem_append.mp hpe with h1 | h1
          · exact hg pe h1
          · rw [List.mem_singleton] at h1
            subst h1
            exact not_not.mp hguid
        · refine List.chain'_append.mpr ⟨hc, List.chain'_singleton _, ?_⟩
          intro a ha y hy
          rw [Option.mem_def] at ha hy
          rw [hx] at ha
          cases ha
          simp only [List.head?] at hy
          cases hy
          simp only [LogSequence.headSeq, hx] at hseq
          exact hseq
      · exact ih _ _ _ _ _ h hg hc
    · cases h
      exact ⟨hg, hc⟩
    · cases h
    · cases h
    · cases h

theorem findLogLoop_inv (f : MFile) (g : Guid) (l0 ll ifl : Nat) :
    ∀ (fuel ct ot : Nat) (cand cand' : LogSequence),
      findLogLoop f g l0 ll ifl fuel ct ot cand = .ok cand' →
      seqInv g cand → seqInv g cand' := by
  intro fuel
  induction fuel with
  | zero => intro ct ot cand cand' h _; cases h
  | succ fuel ih =>
    intro ct ot cand cand' h hq
    simp only [findLogLoop] at h
    split at h
    case _ current head_value hscan =>
      have hcur := scanEntries_inv f g l0 ifl ct ⟨0, []⟩ ct current head_value hscan
        (by intro pe hpe; cases hpe) List.chain'_nil
      by_cases hcond : current.is_valid = true ∧ current.sequence_number > cand.sequence_number
      · rw [if_pos hcond] at h
        have hq2 : seqInv g current := Or.inr ⟨hcond.1, hcur.1, hcur.2⟩
        split at h <;> try split at h <;> try split at h
        all_goals
          first
            | (cases h; exact hq2)
            | exact ih _ _ _ _ h hq2
      · rw [if_neg hcond] at h
        split at h <;> try split at h <;> try split at h
        all_goals
          first
            | (cases h; exact hq)
            | exact ih _ _ _ _ h hq
    · cases h
    · cases h
    · cases h

/-- Claim C4: every log sequence returned by `find_log` is valid (non-empty
with the head's declared `tail` field among the recorded within-log
offsets), all of its entries carry the current header's log GUID, and the
entries' sequence numbers are strictly consecutive from tail to head. -/
theorem c4_find_log_result_valid (f : MFile) (g : Guid) (l0 ll ofl ifl : Nat)
    (seq : LogSequence) (h : findLog f g l0 ll ofl ifl = .ok seq) :
    seq.is_valid = true ∧ guidAll g seq.entries ∧ consecutive seq.entries := by
  simp only [findLog] at h
  split at h
  case _ candidate hloop =>
    have hq := findLogLoop_inv f g l0 ll ifl ofl l0 l0 ⟨0, []⟩ candidate hloop (Or.inl rfl)
    split at h
    · cases h
    rename_i hne
    split at h
    · cases h
    case _ off head hhead =>
      split at h
      · cases h
      · cases h
        rcases hq with hq | hq
        · rw [show seq.entries.isEmpty = true from by rw [hq]; rfl] at hne
          exact absurd rfl hne
        · exact hq
  · cases h
  · cases h
  · cases h

theorem logEntryHeader_read_zeros (f : MFile) (pos : Nat)
    (hsz : pos + 64 ≤ f.size) (hz : ∀ j, j < 64 → f.byteAt (pos + j) = 0) :
    LogEntryHeader.read f pos = .err .invalidSignature := by
  have hbuf : f.readExact pos 64 = some (List.replicate 64 0) := by
    unfold MFile.readExact
    rw [if_pos hsz]
    congr 1
    apply List.ext_getElem
    · simp only [List.length_map, List.length_range, List.length_replicate]
    · intro i h1 h2
      have hi : i < 64 := by
        simpa only [List.length_map, List.length_range] using h1
      simp only [List.getElem_map, List.getElem_range, List.getElem_replicate]
      rw [hz i hi]
  simp only [LogEntryHeader.read, hbuf]
  rfl

theorem entry_read_zeros (f : MFile) (pos : Nat)
    (hsz : pos + 64 ≤ f.size) (hz : ∀ j, j < 64 → f.byteAt (pos + j) = 0) :
    Entry.read f pos = .err .invalidSignature := by
  simp only [Entry.read, logEntryHeader_read_zeros f pos hsz hz]

theorem scanEntries_zeros (f : MFile) (g : Guid) (l0 fuel pos hv : Nat) (cur : LogSequence)
    (hsz : pos + 64 ≤ f.size) (hz : ∀ j, j < 64 → f.byteAt (pos + j) = 0) :
    scanEntries f g l0 (fuel + 1) pos cur hv = .ok (cur, hv) := by
  simp only [scanEntries, entry_read_zeros f pos hsz hz]

theorem findLogLoop_zero_walk (f : MFile) (g : Guid)
    (hsize : f.size = 2 * MB - 4032)
    (hz : ∀ i, MB + 4160 ≤ i → f.byteAt i = 0) :
    ∀ (fuel j ifl : Nat) (cand : LogSequence), 2 ≤ j → j ≤ 255 → 256 - j < fuel →
      findLogLoop f g MB MB (ifl + 1) fuel (MB + 4096 * j) (MB + 4096 * j) cand =
        .ok cand := by
  intro fuel
  induction fuel with
  | zero => intro j ifl cand h2 h255 hf; omega
  | succ fuel ih =>
    intro j ifl cand h2 h255 hf
    have hscan : scanEntries f g MB (ifl + 1) (MB + 4096 * j) ⟨0, []⟩ (MB + 4096 * j) =
        .ok (⟨0, []⟩, MB + 4096 * j) := by
      apply scanEntries_zeros
      · rw [hsize]
        simp only [MB, KB]
        omega
      · intro j' hj'
        apply hz
        simp only [MB, KB]
        omega
    simp only [findLogLoop, hscan]
    have hnc : ¬ ((LogSequence.mk 0 []).is_valid = true ∧
        (LogSequence.mk 0 []).sequence_number > cand.sequence_number) := by
      intro hcond
      exact absurd hcond.1 (by decide)
    rw [if_neg hnc]
    have hor : (LogSequence.mk 0 []).entries.isEmpty = true ∨
        ¬ (LogSequence.mk 0 []).is_valid = true := Or.inl (by decide)
    rw [if_pos hor]
    rcases Nat.lt_or_ge j 255 with hj | hj
    · have hwrap : ¬ (MB + 4096 * j + 4 * KB ≥ MB + MB) := by
        simp only [MB, KB]
        omega
      rw [if_neg hwrap]
      have hlt : ¬ (MB + 4096 * j + 4 * KB < MB + 4096 * j) := by
        simp only [MB, KB]
        omega
      rw [if_neg hlt]
      have harith : MB + 4096 * j + 4 * KB = MB + 4096 * (j + 1) := by
        simp only [MB, KB]
        omega
      rw [harith]
      exact ih (j + 1) ifl cand (by omega) (by omega) (by omega)
    · have hj255 : j = 255 := by omega
      subst hj255
      have hwrap : MB + 4096 * 255 + 4 * KB ≥ MB + MB := by
        simp only [MB, KB]
        omega
      rw [if_pos hwrap]
      have hlt : MB + 4096 * 255 + 4 * KB - MB < MB + 4096 * 255 := by
        simp only [MB, KB]
        omega
      rw [if_pos hlt]

theorem twoEntryLog_zeros (flushed : Nat) :
    ∀ i, MB + 4160 ≤ i → twoEntryLogByteAt flushed i = 0 := by
  intro i hi
  simp only [twoEntryLogByteAt]
  have h1 : ¬ (MB ≤ i ∧ i < MB + 64) := by
    simp only [MB, KB] at hi ⊢
    omega
  have h2 : ¬ (MB + 4096 ≤ i ∧ i < MB + 4096 + 64) := by
    simp only [MB, KB] at hi ⊢
    omega
  rw [if_neg h1, if_neg h2]

set_option maxHeartbeats 2000000 in
theorem c2scan1 : scanEntries c2file testGuid MB 10 MB ⟨0, []⟩ MB =
    .ok (c2cand, MB + 4096) := by
  decide

set_option maxHeartbeats 2000000 in
theorem c2scan2 : scanEntries c2file testGuid MB 10 (MB + 4096) ⟨0, []⟩ (MB + 4096) =
    .ok (⟨2, [(4096, logEntryOf 2 0 (2 * MB))]⟩, MB + 4096) := by
  decide

set_option maxHeartbeats 2000000 in
theorem c4scan1 : scanEntries c4file testGuid MB 10 MB ⟨0, []⟩ MB =
    .ok (c4cand, MB + 4096) := by
  decide

set_option maxHeartbeats 2000000 in
theorem c4scan2 : scanEntries c4file testGuid MB 10 (MB + 4096) ⟨0, []⟩ (MB + 4096) =
    .ok (⟨2, [(4096, logEntryOf 2 0 0)]⟩, MB + 4096) := by
  decide

theorem two_entry_loop (f : MFile) (cand mid : LogSequence)
    (hsize : f.size = 2 * MB - 4032)
    (hz : ∀ i, MB + 4160 ≤ i → f.byteAt i = 0)
    (hscan1 : scanEntries f testGuid MB 10 MB ⟨0, []⟩ MB = .ok (cand, MB + 4096))
    (hscan2 : scanEntries f testGuid MB 10 (MB + 4096) ⟨0, []⟩ (MB + 4096) =
      .ok (mid, MB + 4096))
    (hvalid : cand.is_valid = true)
    (hempty : cand.entries.isEmpty = false)
    (hseq : cand.sequence_number > 0)
    (hmid : mid.is_valid = false) :
    findLogLoop f testGuid MB MB 10 300 MB MB ⟨0, []⟩ = .ok cand := by
  rw [show (300 : Nat) = 299 + 1 from rfl]
  rw [findLogLoop]
  simp only [hscan1]
  have hc1 : cand.is_valid = true ∧
      cand.sequence_number > (LogSequence.mk 0 []).sequence_number := ⟨hvalid, hseq⟩
  rw [if_pos hc1]
  have hno : ¬ (cand.entries.isEmpty = true ∨ ¬ cand.is_valid = true) := by
    rw [hempty, hvalid]
    simp
  rw [if_neg hno]
  have hlt1 : ¬ (MB + 4096 < MB) := by decide
  rw [if_neg hlt1]
  rw [show (299 : Nat) = 298 + 1 from rfl]
  rw [findLogLoop]
  simp only [hscan2]
  have hc2 : ¬ (mid.is_valid = true ∧ mid.sequence_number > cand.sequence_number) := by
    rw [hmid]
    simp
  rw [if_neg hc2]
  have hor2 : mid.entries.isEmpty = true ∨ ¬ mid.is_valid = true := by
    rw [hmid]
    simp
  rw [if_pos hor2]
  have hw2 : ¬ (MB + 4096 + 4 * KB ≥ MB + MB) := by decide
  rw [if_neg hw2]
  have hlt2 : ¬ (MB + 4096 + 4 * KB < MB + 4096) := by decide
  rw [if_neg hlt2]
  have harith : MB + 4096 + 4 * KB = MB + 4096 * 2 := by decide
  rw [harith]
  exact findLogLoop_zero_walk f testGuid hsize hz 298 2 9 cand (by omega) (by omega)
    (by omega)

theorem c2_loop_compute :
    findLogLoop c2file testGuid MB MB 10 300 MB MB ⟨0, []⟩ = .ok c2cand := by
  exact two_entry_loop c2file c2cand ⟨2, [(4096, logEntryOf 2 0 (2 * MB))]⟩ rfl
    (twoEntryLog_zeros (2 * MB)) c2scan1 c2scan2 (by decide) (by decide) (by decide)
    (by decide)

theorem c4_loop_compute :
    findLogLoop c4file testGuid MB MB 10 300 MB MB ⟨0, []⟩ = .ok c4cand := by
  exact two_entry_loop c4file c4cand ⟨2, [(4096, logEntryOf 2 0 0)]⟩ rfl
    (twoEntryLog_zeros 0) c4scan1 c4scan2 (by decide) (by decide) (by decide)
    (by decide)

theorem c2_find_log_compute :
    findLog c2file testGuid MB MB 300 10 = .panic .fileTruncated := by
  simp only [findLog, c2_loop_compute]
  have hne : ¬ (c2cand.entries.isEmpty = true) := by decide
  rw [if_neg hne]
  have hhead : c2cand.head = some (4096, logEntryOf 2 0 (2 * MB)) := rfl
  simp only [hhead]
  have ht : c2file.size < (logEntryOf 2 0 (2 * MB)).header.flushed_file_offset := by decide
  rw [if_pos ht]

theorem c4_find_log_compute :
    findLog c4file testGuid MB MB 300 10 = .ok c4cand := by
  simp only [findLog, c4_loop_compute]
  have hne : ¬ (c4cand.entries.isEmpty = true) := by decide
  rw [if_neg hne]
  have hhead : c4cand.head = some (4096, logEntryOf 2 0 0) := rfl
  simp only [hhead]
  have ht : ¬ (c4file.size < (logEntryOf 2 0 0).header.flushed_file_offset) := by decide
  rw [if_neg ht]

/-- Claim C2 (amended): when the discovery loop produces a non-empty
candidate sequence whose head entry declares a `flushed_file_offset`
larger than the file size, `find_log` — and hence `load`, which calls it
while replaying a log with a non-zero GUID and propagates its outcome —
fails by panicking with the message `file has been truncated, cannot
open`; it does not return an error value (the crate's `Error` type has no
`Corrupt` variant). -/
theorem c2_truncated_file_panics (f : MFile) (g : Guid) (l0 ll ofl ifl : Nat)
    (cand : LogSequence) (pe : Nat × Entry)
    (hloop : findLogLoop f g l0 ll ifl ofl l0 l0 ⟨0, []⟩ = .ok cand)
    (hne : cand.entries.isEmpty = false)
    (hhead : cand.head = some pe)
    (htrunc : f.size < pe.2.header.flushed_file_offset) :
    findLog f g l0 ll ofl ifl = .panic .fileTruncated := by
  simp only [findLog, hloop]
  rw [if_neg (by rw [hne]; simp)]
  simp only [hhead]
  rw [if_pos htrunc]

/-- Witness for C2 (amended): the concrete truncated two-entry disk.  The
discovery loop finds the two-entry candidate, whose head declares
`flushed_file_offset = 2 MiB` while the file is 4032 bytes shorter, and
`find_log` panics with the truncation message. -/
theorem c2_truncated_file_panics_witness :
    findLogLoop c2file testGuid MB MB 10 300 MB MB ⟨0, []⟩ = .ok c2cand ∧
    c2cand.entries.isEmpty = false ∧
    c2file.size < 2 * MB ∧
    findLog c2file testGuid MB MB 300 10 = .panic .fileTruncated := by
  refine ⟨c2_loop_compute, by decide, by decide, ?_⟩
  exact c2_truncated_file_panics c2file testGuid MB MB 300 10 c2cand
    (4096, logEntryOf 2 0 (2 * MB)) c2_loop_compute (by decide) (by decide) (by decide)

/-- Counterexample to C2 as stated: on the concrete truncated disk (whose
log GUID is non-zero), `find_log` does not surface a returned error value
at all — its outcome is the panic `file has been truncated, cannot open`,
which is a `panic`, not an `err`. -/
theorem c2_counterexample :
    ¬ (testGuid = Guid.ZERO) ∧
    c2file.size < 2 * MB ∧
    findLog c2file testGuid MB MB 300 10 = .panic .fileTruncated ∧
    ¬ (findLog c2file testGuid MB MB 300 10 = .err .ioErr) ∧
    ¬ (findLog c2file testGuid MB MB 300 10 = .err .invalidSignature) := by
  refine ⟨by decide, by decide, c2_find_log_compute, ?_, ?_⟩
  · rw [c2_find_log_compute]
    intro h
    cases h
  · rw [c2_find_log_compute]
    intro h
    cases h

/-- Witness for C4: on the concrete two-entry disk, `find_log` returns the
two-entry sequence, which is valid, GUID-consistent, and consecutively
numbered. -/
theorem c4_find_log_result_valid_witness :
    findLog c4file testGuid MB MB 300 10 = .ok c4cand ∧
    (c4cand.is_valid = true ∧ guidAll testGuid c4cand.entries ∧
      consecutive c4cand.entries) :=
  ⟨c4_find_log_compute,
    c4_find_log_result_valid c4file testGuid MB MB 300 10 c4cand c4_find_log_compute⟩

end Vhdx
